import Mathlib

/-!
Verification of the web_game repository's game-platform logic.

Shallow embedding conventions:
* Python dicts become association lists `List (String × V)`; reads take the
  first binding, assignment (`d[k] = v`) replaces the first binding in place
  or appends (`dictInsert`), matching Python dict insertion-order semantics.
* Python floats are modelled as exact rationals `ℚ` (game scores, distances)
  except the haversine trigonometry, which is modelled over `ℝ`.
* Database rows (`User`, `AnswerUser`, `OrderItem`, `GameState`) become
  structures; a query for the first row matching a filter becomes a first
  match on a list of rows.
* Socket emissions to a client are modelled by returned acknowledgement
  values; functions that can silently return model that as a `none`/`false`
  acknowledgement component.
-/

/-- Association-list read, first binding wins: the model of a Python dict
lookup `d[k]` / `d.get(k)`. -/
def dictLookup {V : Type} : List (String × V) → String → Option V
  | [], _ => none
  | (k2, v) :: rest, k => if k2 = k then some v else dictLookup rest k

/-- Association-list assignment `d[k] = v`: replaces the binding for `k` in
place if present, appends otherwise, as a Python dict does. -/
def dictInsert {V : Type} : List (String × V) → String → V → List (String × V)
  | [], k, v => [(k, v)]
  | (k2, v2) :: rest, k, v =>
    if k2 = k then (k, v) :: rest else (k2, v2) :: dictInsert rest k v

/-- Model of Python `current.update(data)`: assign every binding of `updates`
into `current`, in order (`BaseGame.update_game_state` /
`GameManager.update_game_data` both merge this way). -/
def dictUpdate {V : Type} (current updates : List (String × V)) : List (String × V) :=
  updates.foldl (fun acc kv => dictInsert acc kv.1 kv.2) current

/-- Stable insertion into a sorted list, keeping an earlier element in front
of a later equal one. -/
def insertLe {α : Type} (le : α → α → Bool) (x : α) : List α → List α
  | [] => [x]
  | y :: ys => if le x y then x :: y :: ys else y :: insertLe le x ys

/-- Stable sort; the model of Python's `sorted` (which is a stable sort). -/
def sortLe {α : Type} (le : α → α → Bool) : List α → List α
  | [] => []
  | x :: xs => insertLe le x (sortLe le xs)

/-- Model of a row of the `users` table, with the per-game score column used
by the GeoGuessr game and the platform-wide overall score. -/
structure UserRow where
  username : String
  geo_guessr_score : Nat
  overall_score : Nat
deriving DecidableEq

/-- Model of `BaseGame.award_overall_point`: `User.query.filter_by(username=
username).first()` takes the first row with that username and increments its
`overall_score`; no matching row means no change. -/
def award_overall_point : List UserRow → String → List UserRow
  | [], _ => []
  | u :: rest, username =>
    if u.username = username then
      { u with overall_score := u.overall_score + 1 } :: rest
    else
      u :: award_overall_point rest username

namespace OrderingGame

/-- Model of a row of the `order_items` table (for one question): an item
name together with its position in the true ranking. -/
structure OrderItem where
  item_name : String
  position : Nat
deriving DecidableEq

/-- Model of the dict comprehension
`correct_positions = ... for item in order_items` in
`OrderingGame.calculate_kendall_tau_score`. -/
def correctPositions (order_items : List OrderItem) : List (String × Nat) :=
  order_items.foldl (fun acc it => dictInsert acc it.item_name it.position) []

/-- Model of the loop body test in `calculate_kendall_tau_score`: the ordered
pair `(a, b)` (with `a` before `b` in the submission) is an inversion when
both items are in the correct set and `pos_a > pos_b`; pairs with an item
missing from the correct set are skipped (`continue`). -/
def invPair (cp : List (String × Nat)) (a b : String) : Bool :=
  match dictLookup cp a, dictLookup cp b with
  | some pa, some pb => decide (pb < pa)
  | _, _ => false

/-- Ordered pairs `(xs[i], xs[j])` with `i < j`: the model of the double loop
`for i in range(n): for j in range(i+1, n)`. -/
def pairs {α : Type} : List α → List (α × α)
  | [] => []
  | x :: xs => (xs.map (fun y => (x, y))) ++ pairs xs

/-- Model of the inversion count in `calculate_kendall_tau_score`. -/
def inversions (cp : List (String × Nat)) (submitted_order : List String) : Nat :=
  ((pairs submitted_order).filter (fun p => invPair cp p.1 p.2)).length

/-- Model of Python `round(q, 4)` on an exact rational (round half up; the
code rounds an IEEE double, which never presents an exact tie here). -/
def round4 (q : ℚ) : ℚ := ((⌊q * 10000 + 1 / 2⌋ : ℤ) : ℚ) / 10000

/-- Model of `OrderingGame.calculate_kendall_tau_score`: `n` is the length of
the submitted order, inversions are counted over submitted pairs, and the
score is `1 - inversions / (n*(n-1)/2)` rounded to 4 decimals, with a zero
denominator mapped to `1.0`. -/
def calculate_kendall_tau_score (order_items : List OrderItem)
    (submitted_order : List String) : ℚ :=
  let correct_positions := correctPositions order_items
  let n := submitted_order.length
  let num_inversions := inversions correct_positions submitted_order
  let max_inversions : ℚ := (n : ℚ) * ((n : ℚ) - 1) / 2
  if max_inversions = 0 then 1
  else round4 (1 - (num_inversions : ℚ) / max_inversions)

/-- Python `max(iterable)` on a nonempty list of scores: a later element
replaces the running maximum only when strictly greater, so the first
maximal element is kept. -/
def pyMax (x : ℚ) (xs : List ℚ) : ℚ :=
  xs.foldl (fun m q => if m < q then q else m) x

/-- Model of the `end_ordering_round` socket handler's scoring effect (lines
108-159 of `ordering_game.py`), given the stored `player_submissions`
(username, submitted order, score): when submissions exist, every submission
tied for the highest score wins and `award_overall_point` is called once per
winner, in submission order; there is no `winner_determined`-style guard, so
each invocation re-awards. Returns the updated user rows and the winner
names. -/
def end_ordering_round (player_submissions : List (String × List String × ℚ))
    (users : List UserRow) : List UserRow × List String :=
  match player_submissions with
  | [] => (users, [])
  | s :: rest =>
    let max_score := pyMax s.2.2 (rest.map (fun t => t.2.2))
    let winners := ((s :: rest).filter (fun t => decide (t.2.2 = max_score))).map
      (fun t => t.1)
    (winners.foldl (fun us w => award_overall_point us w) users, winners)

/-- Model of the `submit_order` socket handler (lines 40-88 of
`ordering_game.py`). Inputs: the existing question ids, the `order_items`
table rows as (question_id, item) pairs, the stored `player_submissions`,
and the event data. Output: the new `player_submissions` and the
acknowledgement sent to the submitter (`some true` = the success
`order_submitted` emit; `none` = the handler returned silently). The handler
never checks for an existing submission: it assigns
`player_submissions[username]` unconditionally. -/
def handle_submit_order (questions : List Nat)
    (item_rows : List (Nat × OrderItem))
    (player_submissions : List (String × List String × ℚ))
    (username : String) (question_id : Option Nat)
    (submitted_order : List String) :
    List (String × List String × ℚ) × Option Bool :=
  if username = "admin" then (player_submissions, none)
  else if username = "" then (player_submissions, none)
  else
    match question_id with
    | none => (player_submissions, none)
    | some qid =>
      if submitted_order.isEmpty then (player_submissions, none)
      else if ¬ questions.contains qid then (player_submissions, none)
      else
        let order_items := sortLe (fun a b => decide (a.position ≤ b.position))
          ((item_rows.filter (fun r => decide (r.1 = qid))).map (fun r => r.2))
        if order_items.isEmpty then (player_submissions, none)
        else
          let score := calculate_kendall_tau_score order_items submitted_order
          (dictInsert player_submissions username (submitted_order, score), some true)

end OrderingGame

namespace GeoGuessr

/-- Projection of the GeoGuessr `game_data` JSON blob onto the fields the
modelled code reads and writes. A missing key reads as the field's value in
`GeoData.empty` (`game_state.get('status')` is `None`,
`game_state.get('winner_determined', False)` is `False`, the dict-valued
keys default to empty), so resetting the blob to the empty JSON object is
modelled by `GeoData.empty`. -/
structure GeoData where
  status : Option String
  winner_determined : Bool
  player_guesses : List (String × ℚ × ℚ)
  player_total_distances : List (String × ℚ)
deriving DecidableEq

/-- The parse of the reset blob (`game_data = '\x7b\x7d'`). -/
def GeoData.empty : GeoData :=
  { status := none, winner_determined := false, player_guesses := [],
    player_total_distances := [] }

/-- Model of `GeoGuessrGame.submit_guess` (lines 247-274): when the stored
status is not `'active'` the function returns with no state change and no
confirmation emit (`false`); otherwise the guess is stored under the
username and the `geo_guessr_guess_submitted` confirmation is sent
(`true`). -/
def submit_guess (gd : GeoData) (username : String) (latitude longitude : ℚ) :
    GeoData × Bool :=
  if gd.status ≠ some "active" then (gd, false)
  else
    ({ gd with player_guesses :=
        dictInsert gd.player_guesses username (latitude, longitude) }, true)

/-- Model of the winner-selection part of `GeoGuessrGame.calculate_scores`
(lines 306-319): every player whose cumulative distance is at most the
0.25 km threshold wins; if there is none, the first entry of the list
sorted by cumulative distance wins alone. -/
def calculate_scores_winners (player_total_distances : List (String × ℚ)) :
    List String :=
  let winners := (player_total_distances.filter
    (fun p => decide (p.2 ≤ 1 / 4))).map (fun p => p.1)
  if winners.isEmpty then
    match sortLe (fun a b => decide (a.2 ≤ b.2)) player_total_distances with
    | [] => []
    | p :: _ => [p.1]
  else winners

/-- Model of `GeoGuessrGame.determine_winner` (lines 351-400): a no-op when
`winner_determined` is already set; otherwise every non-admin user with a
positive `geo_guessr_score` gains one overall point and the flag is set
(via the merging `update_game_state`, so only that key changes). -/
def determine_winner (gd : GeoData) (users : List UserRow) :
    GeoData × List UserRow :=
  if gd.winner_determined then (gd, users)
  else
    let users2 := users.map (fun u =>
      if u.username ≠ "admin" ∧ 0 < u.geo_guessr_score then
        { u with overall_score := u.overall_score + 1 }
      else u)
    ({ gd with winner_determined := true }, users2)

/-- Model of `GeoGuessrGame.end_game` (lines 337-349): merge
`status = 'game_ended'` into the game data, then run `determine_winner`
(via `BaseGame.end_game`). -/
def geo_end_game (gd : GeoData) (users : List UserRow) :
    GeoData × List UserRow :=
  determine_winner { gd with status := some "game_ended" } users

/-- Combined state for the registry's end-of-game path: the game_data blob
and user rows (shared state), the State Store's `active_game` column, and
whether the registry currently holds an in-memory game instance
(`self.active_game` in `GameManager`). -/
structure GeoSys where
  gameData : GeoData
  users : List UserRow
  store_active_game : Option String
  has_instance : Bool
deriving DecidableEq

/-- Observable steps of `GameManager.end_game`, in emission order:
the module's `end_game` ran (recording the game data it could read),
the State Store row was cleared, the in-memory reference was dropped. -/
inductive EndEvent
  | moduleEnd (seen : GeoData)
  | storeCleared
  | refDropped
deriving DecidableEq

/-- Model of `GameManager.end_game` (lines 97-114 of `game_manager.py`) with
a GeoGuessr instance active: returns `False` untouched when no instance is
held; otherwise the instance's `end_game` runs first against the
still-populated game data, then the store row is cleared
(`active_game = None`, `game_data = '\x7b\x7d'`), then the reference is
dropped. The event list records the order in which these steps happened. -/
def gm_end_game (s : GeoSys) : GeoSys × Bool × List EndEvent :=
  if s.has_instance = false then (s, false, [])
  else
    let seen := s.gameData
    let r := geo_end_game s.gameData s.users
    let s1 : GeoSys := { s with gameData := r.1, users := r.2 }
    let s2 : GeoSys := { s1 with store_active_game := none,
                                 gameData := GeoData.empty }
    let s3 : GeoSys := { s2 with has_instance := false }
    (s3, true, [EndEvent.moduleEnd seen, EndEvent.storeCleared,
                EndEvent.refDropped])

end GeoGuessr

namespace GameManager

/-- Where a `start_game` attempt can fail inside its `try` block, after the
database row has already been committed: at module import / class
instantiation (lines 76-81, before `self.active_game` is assigned) or inside
`initialize()` (line 86, after the assignment). `ok` is the exception-free
run. -/
inductive StartOutcome
  | ok
  | failInstantiate
  | failInitialize
deriving DecidableEq

/-- Model of the `GameState` row columns `start_game`/`end_game` touch. -/
structure StoreRow where
  is_active : Bool
  active_game : Option String
deriving DecidableEq

/-- Model of the `GameManager` object state: the (at most one) `GameState`
row, and the held game instance, identified by its game name. Holding the
instance in an `Option` embeds the structural fact that the manager field
`self.active_game` holds at most one instance. -/
structure Mgr where
  store : Option StoreRow
  active_game : Option String
deriving DecidableEq

/-- The keys of `self.games` in `GameManager.__init__`. -/
def gamesKeys : List String :=
  ["flappy_birds", "price_guesser", "buzzer", "coop_puzzle", "movie_guesser",
   "ordering_game", "tt"]

/-- Model of `GameManager.start_game` (lines 53-95): an unknown name fails
with no state change; otherwise the store row is created or overwritten with
`active_game = game_name` and committed first, and only then is the game
class imported, instantiated (assigning `self.active_game`) and initialized.
An exception in that later part is caught and `False` returned, but the
already-committed store update is not rolled back. -/
def start_game (s : Mgr) (game_name : String) (o : StartOutcome) : Mgr × Bool :=
  if ¬ gamesKeys.contains game_name then (s, false)
  else
    let row : StoreRow := { is_active := true, active_game := some game_name }
    let s1 : Mgr := { s with store := some row }
    match o with
    | StartOutcome.failInstantiate => (s1, false)
    | StartOutcome.failInitialize => ({ s1 with active_game := some game_name }, false)
    | StartOutcome.ok => ({ s1 with active_game := some game_name }, true)

/-- Model of `GameManager.end_game` (lines 97-114) at the state level:
returns `False` when no instance is held; otherwise clears the store row's
`active_game` (when the row exists) and drops the instance. -/
def end_game (s : Mgr) : Mgr × Bool :=
  match s.active_game with
  | none => (s, false)
  | some _ =>
    let s1 : Mgr :=
      match s.store with
      | none => s
      | some row => { s with store := some { row with active_game := none } }
    ({ s1 with active_game := none }, true)

/-- A call into the registry: `start_game(game_name)` with its run outcome,
or `end_game()`. -/
inductive MgrCall
  | start (game_name : String) (o : StartOutcome)
  | finish
deriving DecidableEq

/-- State reached after one registry call. -/
def stepCall (s : Mgr) : MgrCall → Mgr
  | MgrCall.start n o => (start_game s n o).1
  | MgrCall.finish => (end_game s).1

/-- State reached after a sequence of registry calls. -/
def runCalls (s : Mgr) (cs : List MgrCall) : Mgr := cs.foldl stepCall s

/-- The claimed invariant: the State Store's `active_game` column equals the
held instance's game id when an instance is held, and is null when none is
held. -/
def storeMatches (s : Mgr) : Prop :=
  (s.store.bind (fun r => r.active_game)) = s.active_game

/-- Fresh manager: no `GameState` row yet, no instance held. -/
def initialMgr : Mgr := { store := none, active_game := none }

/-- A call that raises no exception after the store commit: a start that
either targets an unknown game (rejected before any state change) or runs
to completion, or any end_game call. -/
def exceptionFree : MgrCall → Prop
  | MgrCall.start n o => o = StartOutcome.ok ∨ ¬ gamesKeys.contains n
  | MgrCall.finish => True

end GameManager

namespace App

/-- Model of a row of the `answer_user` table. -/
structure AnswerRec where
  user_id : Nat
  question_id : Nat
  round : Nat
  answer_raw : String
  answer_normalized : String
  is_correct : Bool
deriving DecidableEq

/-- Model of the `submit_answer` handler `handle_submit_answer` (lines
2071-2192 of `app.py`) for a resolved user and question; `answer_raw` is the
already-stripped text, `answer_normalized` its normalization
(`AnswerHandler.normalize_answer`), and `is_correct` the result the movie
validation would compute — both external to the duplicate logic and passed
in. Returns the new answer table and the `answer_submitted`
acknowledgement (success flag, message): an empty answer, an earlier
correct answer for the question, or an existing answer for the same
(question, round) key each reject without touching the table; otherwise the
new row is appended and a success acknowledgement sent. -/
def handle_submit_answer (answers : List AnswerRec)
    (user_id question_id round_num : Nat)
    (answer_raw answer_normalized : String) (is_correct : Bool) :
    List AnswerRec × Bool × String :=
  if answer_raw = "" then (answers, false, "Answer cannot be empty")
  else
    match answers.find? (fun a =>
        a.user_id == user_id && a.question_id == question_id && a.is_correct) with
    | some a =>
      (answers, false,
        "You already guessed correctly in round " ++ toString a.round ++ "!")
    | none =>
      match answers.find? (fun a =>
          a.user_id == user_id && a.question_id == question_id &&
          a.round == round_num) with
      | some _ => (answers, false, "You have already answered for this round!")
      | none =>
        (answers ++ [{ user_id := user_id, question_id := question_id,
                       round := round_num, answer_raw := answer_raw,
                       answer_normalized := answer_normalized,
                       is_correct := is_correct }],
         true, "Answer recorded!")

end App

namespace StateStore

/-- Model of `BaseGame.update_game_state` (lines 22-29 of `base.py`): parse
the stored blob (a missing/empty blob parses to the empty dict), merge the
partial update into it key by key, and store the result. -/
def update_game_state {V : Type} (stored : Option (List (String × V)))
    (data : List (String × V)) : List (String × V) :=
  dictUpdate (match stored with | none => [] | some d => d) data

/-- Model of `GameManager.update_game_data` (lines 119-125 of
`game_manager.py`), the same read-merge-write on the stored blob. -/
def update_game_data {V : Type} (stored : Option (List (String × V)))
    (data : List (String × V)) : List (String × V) :=
  dictUpdate (match stored with | none => [] | some d => d) data

end StateStore

namespace Haversine

/-- Model of `math.radians`. -/
noncomputable def radians (x : ℝ) : ℝ := x * Real.pi / 180

/-- Model of `GeoGuessrGame.calculate_distance` (lines 276-292): the
haversine great-circle distance in kilometers with earth radius 6371, over
exact reals. -/
noncomputable def calculate_distance (lat1 lon1 lat2 lon2 : ℝ) : ℝ :=
  let rlat1 := radians lat1
  let rlon1 := radians lon1
  let rlat2 := radians lat2
  let rlon2 := radians lon2
  let dlon := rlon2 - rlon1
  let dlat := rlat2 - rlat1
  let a := Real.sin (dlat / 2) ^ 2 +
    Real.cos rlat1 * Real.cos rlat2 * Real.sin (dlon / 2) ^ 2
  let c := 2 * Real.arcsin (Real.sqrt a)
  c * 6371

/-- The fixed distance charged per round to a participant who never submits
(`penalty_distance` in `GeoGuessrGame.end_round`, line 165). -/
noncomputable def penalty_distance : ℝ := 20000

end Haversine

theorem invPair_true_isSome (cp : List (String × Nat)) (a b : String)
    (h : OrderingGame.invPair cp a b = true) :
    (dictLookup cp a).isSome = true ∧ (dictLookup cp b).isSome = true := by
  cases ha : dictLookup cp a with
  | none => simp [OrderingGame.invPair, ha] at h
  | some pa =>
    cases hb : dictLookup cp b with
    | none => simp [OrderingGame.invPair, ha, hb] at h
    | some pb => simp [ha, hb]

theorem length_filter_map_pair (cp : List (String × Nat)) (x : String)
    (xs : List String) :
    ((xs.map (fun y => (x, y))).filter
      (fun p => OrderingGame.invPair cp p.1 p.2)).length =
      (xs.filter (fun y => OrderingGame.invPair cp x y)).length := by
  induction xs with
  | nil => rfl
  | cons y ys ih =>
    simp only [List.map_cons, List.filter_cons]
    by_cases hy : OrderingGame.invPair cp x y = true
    · simp [hy, ih]
    · simp [hy, ih]

theorem inversions_cons (cp : List (String × Nat)) (x : String)
    (xs : List String) :
    OrderingGame.inversions cp (x :: xs) =
      (xs.filter (fun y => OrderingGame.invPair cp x y)).length +
        OrderingGame.inversions cp xs := by
  unfold OrderingGame.inversions
  rw [show OrderingGame.pairs (x :: xs) =
    (xs.map (fun y => (x, y))) ++ OrderingGame.pairs xs from rfl]
  rw [List.filter_append, List.length_append, length_filter_map_pair]

theorem inversions_filter_present (cp : List (String × Nat))
    (sub : List String) :
    OrderingGame.inversions cp sub =
      OrderingGame.inversions cp
        (sub.filter (fun x => (dictLookup cp x).isSome)) := by
  induction sub with
  | nil => rfl
  | cons x xs ih =>
    rw [inversions_cons]
    by_cases hx : (dictLookup cp x).isSome = true
    · rw [List.filter_cons_of_pos
        (p := fun s => (dictLookup cp s).isSome) hx, inversions_cons]
      have hcount : (xs.filter (fun y => OrderingGame.invPair cp x y)).length =
          ((xs.filter (fun s => (dictLookup cp s).isSome)).filter
            (fun y => OrderingGame.invPair cp x y)).length := by
        rw [List.filter_filter]
        apply congrArg List.length
        apply List.filter_congr
        intro y _
        cases hinv : OrderingGame.invPair cp x y
        · simp
        · have hs := invPair_true_isSome cp x y hinv
          simp [hs.2]
      rw [ih, hcount]
    · have hzero : (xs.filter (fun y => OrderingGame.invPair cp x y)) = [] := by
        rw [List.filter_eq_nil_iff]
        intro y _ hcon
        exact hx (invPair_true_isSome cp x y hcon).1
      rw [List.filter_cons_of_neg
        (p := fun s => (dictLookup cp s).isSome) hx, hzero]
      simpa using ih

/-- Claim C10: the ordering score function returns exactly 1.0 for every
submission in which no two submitted items both occur in the true ranking —
zero inversions are counted and a zero pair-count denominator maps to 1.0 —
so such a degenerate submission (empty, single-item, or all items outside
the ranking) ties any perfect submission. -/
theorem C10_degenerate_ordering_submission_scores_one
    (order_items : List OrderingGame.OrderItem) (sub : List String)
    (h : ∀ p ∈ OrderingGame.pairs sub,
      ¬ ((dictLookup (OrderingGame.correctPositions order_items) p.1).isSome = true ∧
         (dictLookup (OrderingGame.correctPositions order_items) p.2).isSome = true)) :
    OrderingGame.calculate_kendall_tau_score order_items sub = 1 := by
  have hz : OrderingGame.inversions
      (OrderingGame.correctPositions order_items) sub = 0 := by
    unfold OrderingGame.inversions
    rw [List.length_eq_zero, List.filter_eq_nil_iff]
    intro p hp hcon
    exact h p hp (invPair_true_isSome _ _ _ hcon)
  simp only [OrderingGame.calculate_kendall_tau_score, hz]
  by_cases hn : ((sub.length : ℚ) * ((sub.length : ℚ) - 1) / 2) = 0
  · rw [if_pos hn]
  · rw [if_neg hn]
    norm_num [OrderingGame.round4]

/-- Witness for C10 at a submission of three items, none in the ranking. -/
theorem C10_degenerate_ordering_submission_scores_one_witness :
    OrderingGame.calculate_kendall_tau_score
      [⟨"a", 0⟩, ⟨"b", 1⟩] ["x", "y", "z"] = 1 :=
  C10_degenerate_ordering_submission_scores_one _ _ (by decide)

/-- Claim C4 counterexample: against the 3-item ranking w, x, y, the 2-item
submission [x, w] is scored 0 by the code (its maxInversions is computed
from the submission length, 2*1/2 = 1), but the claimed formula with
maxInversions = N(N-1)/2 for the ranking size N = 3 gives 1 - 1/3 = 2/3. -/
theorem C4_counterexample :
    OrderingGame.calculate_kendall_tau_score
      [⟨"w", 0⟩, ⟨"x", 1⟩, ⟨"y", 2⟩] ["x", "w"] ≠
      1 - (OrderingGame.inversions
          (OrderingGame.correctPositions [⟨"w", 0⟩, ⟨"x", 1⟩, ⟨"y", 2⟩])
          ["x", "w"] : ℚ) /
        ((3 : ℚ) * ((3 : ℚ) - 1) / 2) := by
  have h1 : OrderingGame.inversions
      (OrderingGame.correctPositions [⟨"w", 0⟩, ⟨"x", 1⟩, ⟨"y", 2⟩])
      ["x", "w"] = 1 := by decide
  norm_num [OrderingGame.calculate_kendall_tau_score, h1, OrderingGame.round4]

/-- Claim C4 (amended: maxInversions is computed from the length n of the
submitted ordering, which equals N only when all N ranked items are
submitted; the score is rounded to 4 decimals): the computed score equals
round4(1 - inversions / (n(n-1)/2)); pairs involving an item not present in
the true ranking are ignored rather than the submission being rejected
(dropping all absent items leaves the inversion count unchanged); the score
is 1.0 for an exact match, 0.0 for the exact reverse, 0.8333 for one
adjacent-pair swap among 4 items, and a submission containing an unranked
item is still scored. -/
theorem C4_kendall_tau_score_formula :
    (∀ (order_items : List OrderingGame.OrderItem) (sub : List String),
      2 ≤ sub.length →
      OrderingGame.calculate_kendall_tau_score order_items sub =
        OrderingGame.round4 (1 -
          (OrderingGame.inversions
            (OrderingGame.correctPositions order_items) sub : ℚ) /
          ((sub.length : ℚ) * ((sub.length : ℚ) - 1) / 2))) ∧
    (∀ (order_items : List OrderingGame.OrderItem) (sub : List String),
      OrderingGame.inversions (OrderingGame.correctPositions order_items) sub =
        OrderingGame.inversions (OrderingGame.correctPositions order_items)
          (sub.filter (fun x =>
            (dictLookup (OrderingGame.correctPositions order_items) x).isSome))) ∧
    OrderingGame.calculate_kendall_tau_score
      [⟨"w", 0⟩, ⟨"x", 1⟩, ⟨"y", 2⟩, ⟨"z", 3⟩] ["w", "x", "y", "z"] = 1 ∧
    OrderingGame.calculate_kendall_tau_score
      [⟨"w", 0⟩, ⟨"x", 1⟩, ⟨"y", 2⟩, ⟨"z", 3⟩] ["z", "y", "x", "w"] = 0 ∧
    OrderingGame.calculate_kendall_tau_score
      [⟨"w", 0⟩, ⟨"x", 1⟩, ⟨"y", 2⟩, ⟨"z", 3⟩] ["w", "y", "x", "z"] =
      8333 / 10000 ∧
    OrderingGame.calculate_kendall_tau_score
      [⟨"w", 0⟩, ⟨"x", 1⟩, ⟨"y", 2⟩, ⟨"z", 3⟩] ["w", "q", "x"] = 1 := by
  refine ⟨?_, ?_, ?_, ?_, ?_, ?_⟩
  · intro order_items sub hlen
    have h2 : (2 : ℚ) ≤ (sub.length : ℚ) := by exact_mod_cast hlen
    have hpos : (0 : ℚ) < (sub.length : ℚ) * ((sub.length : ℚ) - 1) / 2 := by
      nlinarith
    simp only [OrderingGame.calculate_kendall_tau_score]
    rw [if_neg (ne_of_gt hpos)]
  · intro order_items sub
    exact inversions_filter_present _ _
  · have h1 : OrderingGame.inversions
        (OrderingGame.correctPositions [⟨"w", 0⟩, ⟨"x", 1⟩, ⟨"y", 2⟩, ⟨"z", 3⟩])
        ["w", "x", "y", "z"] = 0 := by decide
    norm_num [OrderingGame.calculate_kendall_tau_score, h1, OrderingGame.round4]
  · have h1 : OrderingGame.inversions
        (OrderingGame.correctPositions [⟨"w", 0⟩, ⟨"x", 1⟩, ⟨"y", 2⟩, ⟨"z", 3⟩])
        ["z", "y", "x", "w"] = 6 := by decide
    norm_num [OrderingGame.calculate_kendall_tau_score, h1, OrderingGame.round4]
  · have h1 : OrderingGame.inversions
        (OrderingGame.correctPositions [⟨"w", 0⟩, ⟨"x", 1⟩, ⟨"y", 2⟩, ⟨"z", 3⟩])
        ["w", "y", "x", "z"] = 1 := by decide
    norm_num [OrderingGame.calculate_kendall_tau_score, h1, OrderingGame.round4]
  · have h1 : OrderingGame.inversions
        (OrderingGame.correctPositions [⟨"w", 0⟩, ⟨"x", 1⟩, ⟨"y", 2⟩, ⟨"z", 3⟩])
        ["w", "q", "x"] = 0 := by decide
    norm_num [OrderingGame.calculate_kendall_tau_score, h1, OrderingGame.round4]

/-- Witness for C4's amended formula at the 2-item reversed submission. -/
theorem C4_kendall_tau_score_formula_witness :
    OrderingGame.calculate_kendall_tau_score [⟨"w", 0⟩, ⟨"x", 1⟩] ["x", "w"] =
      OrderingGame.round4 (1 -
        (OrderingGame.inversions
          (OrderingGame.correctPositions [⟨"w", 0⟩, ⟨"x", 1⟩])
          ["x", "w"] : ℚ) /
        (((["x", "w"] : List String).length : ℚ) *
          ((((["x", "w"] : List String).length : ℚ)) - 1) / 2)) :=
  C4_kendall_tau_score_formula.1 _ _ (by decide)

/-- Claim C2 counterexample: in the ordering game the platform-point award
lives in the `end_ordering_round` socket handler and has no
`winner_determined`-style guard. With one stored submission by player p
(score 1) and p at 0 overall points, the first end signal brings p to 1
overall point, and a duplicate end signal brings p to 2 — the point is not
awarded exactly once. -/
theorem C2_counterexample :
    (OrderingGame.end_ordering_round [("p", ["a"], 1)] [⟨"p", 0, 0⟩]).1 =
      [⟨"p", 0, 1⟩] ∧
    (OrderingGame.end_ordering_round [("p", ["a"], 1)]
        (OrderingGame.end_ordering_round [("p", ["a"], 1)] [⟨"p", 0, 0⟩]).1).1 =
      [⟨"p", 0, 2⟩] := by
  constructor
  · simp [OrderingGame.end_ordering_round, OrderingGame.pyMax,
      award_overall_point]
  · simp [OrderingGame.end_ordering_round, OrderingGame.pyMax,
      award_overall_point]

/-- Claim C2 (amended: the winnerDetermined guard makes GeoGuessr's
determineWinner idempotent — a second invocation awards no further overall
points, and the single effective invocation adds exactly one overall point
to every non-admin user with a positive geo score; the ordering game's
award path is the unguarded end_ordering_round handler, which re-awards on
every duplicate end signal, as the counterexample shows). -/
theorem C2_geo_determine_winner_idempotent (gd : GeoGuessr.GeoData)
    (users : List UserRow) :
    (GeoGuessr.determine_winner (GeoGuessr.determine_winner gd users).1
        (GeoGuessr.determine_winner gd users).2 =
      GeoGuessr.determine_winner gd users) ∧
    (gd.winner_determined = false →
      ((GeoGuessr.determine_winner gd users).2).map (fun u => u.overall_score) =
        users.map (fun u => u.overall_score +
          if u.username ≠ "admin" ∧ 0 < u.geo_guessr_score then 1 else 0)) := by
  constructor
  · by_cases h : gd.winner_determined
    · simp [GeoGuessr.determine_winner, h]
    · simp [GeoGuessr.determine_winner, h]
  · intro h
    have hd : GeoGuessr.determine_winner gd users =
        ({ gd with winner_determined := true },
          users.map (fun u =>
            if u.username ≠ "admin" ∧ 0 < u.geo_guessr_score then
              { u with overall_score := u.overall_score + 1 }
            else u)) := by
      simp [GeoGuessr.determine_winner, h]
    rw [hd, List.map_map]
    apply List.map_congr_left
    intro u _
    by_cases hc : u.username ≠ "admin" ∧ 0 < u.geo_guessr_score
    · simp [hc]
    · simp [hc]

/-- Witness for C2's amended theorem: one player with a positive geo score,
flag initially unset. -/
theorem C2_geo_determine_winner_idempotent_witness :
    (GeoGuessr.determine_winner
        (GeoGuessr.determine_winner ⟨some "game_ended", false, [], []⟩
          [⟨"p", 1, 0⟩]).1
        (GeoGuessr.determine_winner ⟨some "game_ended", false, [], []⟩
          [⟨"p", 1, 0⟩]).2 =
      GeoGuessr.determine_winner ⟨some "game_ended", false, [], []⟩
        [⟨"p", 1, 0⟩]) ∧
    ((GeoGuessr.determine_winner ⟨some "game_ended", false, [], []⟩
        [⟨"p", 1, 0⟩]).2).map (fun u => u.overall_score) =
      [⟨"p", 1, 0⟩].map (fun u : UserRow => u.overall_score +
        if u.username ≠ "admin" ∧ 0 < u.geo_guessr_score then 1 else 0) :=
  ⟨(C2_geo_determine_winner_idempotent ⟨some "game_ended", false, [], []⟩
      [⟨"p", 1, 0⟩]).1,
   (C2_geo_determine_winner_idempotent ⟨some "game_ended", false, [], []⟩
      [⟨"p", 1, 0⟩]).2 rfl⟩

/-- Claim C8: a guess submission arriving while the stored status is not
'active' is rejected with no state mutation: the game data (including the
participant's prior guesses) is returned unchanged and no confirmation is
emitted. -/
theorem C8_stale_guess_rejected (gd : GeoGuessr.GeoData) (username : String)
    (latitude longitude : ℚ) (h : gd.status ≠ some "active") :
    GeoGuessr.submit_guess gd username latitude longitude = (gd, false) := by
  simp only [GeoGuessr.submit_guess, if_pos h]

/-- Witness for C8: a guess arriving after the round ended. -/
theorem C8_stale_guess_rejected_witness :
    GeoGuessr.submit_guess ⟨some "round_ended", false, [("q", 1, 2)], []⟩
      "q" 3 4 =
    (⟨some "round_ended", false, [("q", 1, 2)], []⟩, false) :=
  C8_stale_guess_rejected _ _ _ _ (by decide)

/-- Claim C7: with an instance active, the registry's end_game runs the
module's end_game first — its winner determination observes the
still-populated game data, and its effect on the user rows survives — and
only then clears the store (active_game null, game_data reset to the empty
blob) and drops the in-memory reference, returning True. -/
theorem C7_end_game_runs_module_first (s : GeoGuessr.GeoSys)
    (h : s.has_instance = true) :
    (GeoGuessr.gm_end_game s).2.2 =
      [GeoGuessr.EndEvent.moduleEnd s.gameData,
       GeoGuessr.EndEvent.storeCleared, GeoGuessr.EndEvent.refDropped] ∧
    (GeoGuessr.gm_end_game s).1.users =
      (GeoGuessr.geo_end_game s.gameData s.users).2 ∧
    (GeoGuessr.gm_end_game s).1.store_active_game = none ∧
    (GeoGuessr.gm_end_game s).1.gameData = GeoGuessr.GeoData.empty ∧
    (GeoGuessr.gm_end_game s).1.has_instance = false ∧
    (GeoGuessr.gm_end_game s).2.1 = true := by
  simp [GeoGuessr.gm_end_game, h]

/-- Witness for C7 at a concrete active state. -/
theorem C7_end_game_runs_module_first_witness :
    (GeoGuessr.gm_end_game
        ⟨⟨some "active", false, [], []⟩, [⟨"p", 1, 0⟩], some "geo_guessr",
          true⟩).2.2 =
      [GeoGuessr.EndEvent.moduleEnd ⟨some "active", false, [], []⟩,
       GeoGuessr.EndEvent.storeCleared, GeoGuessr.EndEvent.refDropped] ∧
    (GeoGuessr.gm_end_game
        ⟨⟨some "active", false, [], []⟩, [⟨"p", 1, 0⟩], some "geo_guessr",
          true⟩).1.users =
      (GeoGuessr.geo_end_game ⟨some "active", false, [], []⟩ [⟨"p", 1, 0⟩]).2 ∧
    (GeoGuessr.gm_end_game
        ⟨⟨some "active", false, [], []⟩, [⟨"p", 1, 0⟩], some "geo_guessr",
          true⟩).1.store_active_game = none ∧
    (GeoGuessr.gm_end_game
        ⟨⟨some "active", false, [], []⟩, [⟨"p", 1, 0⟩], some "geo_guessr",
          true⟩).1.gameData = GeoGuessr.GeoData.empty ∧
    (GeoGuessr.gm_end_game
        ⟨⟨some "active", false, [], []⟩, [⟨"p", 1, 0⟩], some "geo_guessr",
          true⟩).1.has_instance = false ∧
    (GeoGuessr.gm_end_game
        ⟨⟨some "active", false, [], []⟩, [⟨"p", 1, 0⟩], some "geo_guessr",
          true⟩).2.1 = true :=
  C7_end_game_runs_module_first
    ⟨⟨some "active", false, [], []⟩, [⟨"p", 1, 0⟩], some "geo_guessr", true⟩ rfl

theorem storeMatches_step (s : GameManager.Mgr)
    (hs : GameManager.storeMatches s) (c : GameManager.MgrCall)
    (hc : GameManager.exceptionFree c) :
    GameManager.storeMatches (GameManager.stepCall s c) := by
  cases c with
  | start n o =>
    by_cases hn : GameManager.gamesKeys.contains n
    · have ho : o = GameManager.StartOutcome.ok := by
        cases hc with
        | inl h => exact h
        | inr h => exact absurd hn h
      subst ho
      have hn2 : n ∈ GameManager.gamesKeys := by simpa using hn
      simp [GameManager.stepCall, GameManager.start_game, hn2,
        GameManager.storeMatches]
    · have hn2 : ¬ n ∈ GameManager.gamesKeys := by simpa using hn
      simp [GameManager.stepCall, GameManager.start_game, hn2, hs]
  | finish =>
    cases hag : s.active_game with
    | none =>
      simpa [GameManager.stepCall, GameManager.end_game, hag] using hs
    | some g =>
      cases hst : s.store with
      | none =>
        simp [GameManager.stepCall, GameManager.end_game, hag, hst,
          GameManager.storeMatches]
      | some row =>
        simp [GameManager.stepCall, GameManager.end_game, hag, hst,
          GameManager.storeMatches]

theorem runCalls_preserves (cs : List GameManager.MgrCall) :
    ∀ s, GameManager.storeMatches s → (∀ c ∈ cs, GameManager.exceptionFree c) →
      GameManager.storeMatches (GameManager.runCalls s cs) := by
  induction cs with
  | nil => intro s hs _; exact hs
  | cons c rest ih =>
    intro s hs hall
    rw [show GameManager.runCalls s (c :: rest) =
      GameManager.runCalls (GameManager.stepCall s c) rest from rfl]
    exact ih _ (storeMatches_step s hs c (hall c (by simp)))
      (fun d hd => hall d (by simp [hd]))

/-- Claim C1 counterexample: starting from a fresh manager, a `start_game`
call for the known game "buzzer" whose instantiation raises after the
database commit returns failure, yet leaves the State Store's `active_game`
set to "buzzer" while no instance is held — not null as the claim
requires after a failed `start_game`. -/
theorem C1_counterexample :
    ¬ GameManager.storeMatches
      (GameManager.start_game GameManager.initialMgr "buzzer"
        GameManager.StartOutcome.failInstantiate).1 := by
  simp [GameManager.start_game, GameManager.initialMgr,
    GameManager.storeMatches, GameManager.gamesKeys]

/-- Claim C1 (amended: at most one instance is ever held — structurally, the
manager has a single `active_game` slot — and after every call in a sequence
of `start_game` and `end_game` calls the store's `active_game` equals the
held instance's game id, or is null when none is held, provided no
`start_game` raises between its database commit and the end of
`initialize()`; a failed `start_game` for an unknown name also preserves
this, but an exception after the commit leaves the store pointing at the
requested game with no matching instance held, as the counterexample
shows). -/
theorem C1_active_game_invariant (cs : List GameManager.MgrCall)
    (h : ∀ c ∈ cs, GameManager.exceptionFree c) :
    GameManager.storeMatches (GameManager.runCalls GameManager.initialMgr cs) :=
  runCalls_preserves cs GameManager.initialMgr rfl h

/-- Witness for C1's amended invariant over a start / end / failed-start
sequence. -/
theorem C1_active_game_invariant_witness :
    GameManager.storeMatches (GameManager.runCalls GameManager.initialMgr
      [GameManager.MgrCall.start "buzzer" GameManager.StartOutcome.ok,
       GameManager.MgrCall.finish,
       GameManager.MgrCall.start "nope" GameManager.StartOutcome.failInstantiate]) :=
  C1_active_game_invariant _ (by
    simp [GameManager.exceptionFree, GameManager.gamesKeys])

theorem dictLookup_dictInsert {V : Type} (d : List (String × V))
    (k k2 : String) (v : V) :
    dictLookup (dictInsert d k v) k2 =
      if k = k2 then some v else dictLookup d k2 := by
  induction d with
  | nil => simp [dictInsert, dictLookup]
  | cons kv rest ih =>
    obtain ⟨k1, v1⟩ := kv
    by_cases h1 : k1 = k
    · subst h1
      by_cases h2 : k1 = k2
      · subst h2
        simp [dictInsert, dictLookup]
      · simp [dictInsert, dictLookup, h2]
    · by_cases h2 : k1 = k2
      · subst h2
        have hk : ¬ k = k1 := fun hcon => h1 hcon.symm
        simp [dictInsert, dictLookup, h1, hk]
      · simp [dictInsert, dictLookup, h1, h2, ih]

theorem dictLookup_eq_none_of_not_key {V : Type} (d : List (String × V))
    (k : String) (h : k ∉ d.map Prod.fst) : dictLookup d k = none := by
  induction d with
  | nil => rfl
  | cons kv rest ih =>
    have hne : ¬ kv.1 = k := by
      intro hcon
      exact h (by simp [hcon])
    obtain ⟨k1, v1⟩ := kv
    simp only [dictLookup]
    rw [if_neg hne]
    exact ih (fun hcon => h (by simp [hcon]))

theorem dictLookup_dictUpdate {V : Type} (current updates : List (String × V))
    (k : String) (h : (updates.map Prod.fst).Nodup) :
    dictLookup (dictUpdate current updates) k =
      match dictLookup updates k with
      | some v => some v
      | none => dictLookup current k := by
  induction updates generalizing current with
  | nil => simp [dictUpdate, dictLookup]
  | cons kv rest ih =>
    obtain ⟨k1, v1⟩ := kv
    have hnd : (rest.map Prod.fst).Nodup := (List.nodup_cons.mp (by simpa using h)).2
    have hk1 : k1 ∉ rest.map Prod.fst := (List.nodup_cons.mp (by simpa using h)).1
    rw [show dictUpdate current ((k1, v1) :: rest) =
      dictUpdate (dictInsert current k1 v1) rest from rfl]
    rw [ih _ hnd]
    by_cases hkk : k1 = k
    · subst hkk
      have hrest : dictLookup rest k1 = none :=
        dictLookup_eq_none_of_not_key rest k1 hk1
      simp [dictLookup, hrest, dictLookup_dictInsert]
    · simp [dictLookup, hkk, dictLookup_dictInsert]

/-- Claim C9: the game-data merge (`BaseGame.update_game_state` /
`GameManager.update_game_data`) is a read-modify-write merge of top-level
keys, never a replacement: with distinct keys in the partial update, every
key present in the partial maps to its new value afterwards, and every
other pre-existing key keeps its prior value; and both entry points perform
the identical merge. -/
theorem C9_update_game_state_merges {V : Type}
    (stored updates : List (String × V)) (k : String)
    (h : (updates.map Prod.fst).Nodup) :
    (∀ v, dictLookup updates k = some v →
      dictLookup (StateStore.update_game_state (some stored) updates) k =
        some v) ∧
    (dictLookup updates k = none →
      dictLookup (StateStore.update_game_state (some stored) updates) k =
        dictLookup stored k) ∧
    StateStore.update_game_data (some stored) updates =
      StateStore.update_game_state (some stored) updates := by
  have hmain := dictLookup_dictUpdate stored updates k h
  refine ⟨?_, ?_, rfl⟩
  · intro v hv
    rw [hv] at hmain
    simpa [StateStore.update_game_state, dictUpdate] using hmain
  · intro hv
    rw [hv] at hmain
    simpa [StateStore.update_game_state, dictUpdate] using hmain

/-- Witness for C9 on a two-key store and a two-key partial update. -/
theorem C9_update_game_state_merges_witness :
    ((∀ v : Nat, dictLookup [("b", 5), ("c", 7)] "b" = some v →
      dictLookup (StateStore.update_game_state
        (some [("a", 1), ("b", 2)]) [("b", 5), ("c", 7)]) "b" = some v) ∧
    (dictLookup [("b", 5), ("c", 7)] "b" = none →
      dictLookup (StateStore.update_game_state
        (some [("a", 1), ("b", 2)]) [("b", 5), ("c", 7)]) "b" =
        dictLookup [("a", 1), ("b", 2)] "b") ∧
    StateStore.update_game_data (some [("a", 1), ("b", 2)]) [("b", 5), ("c", 7)] =
      StateStore.update_game_state
        (some [("a", 1), ("b", 2)]) [("b", 5), ("c", 7)]) :=
  C9_update_game_state_merges [("a", 1), ("b", 2)] [("b", 5), ("c", 7)] "b"
    (by decide)

/-- Claim C5 counterexample: in the ordering game, player p has an accepted
submission ([a, b], score 1) for question 1; a second submission [b, a] for
the same question is not rejected — the handler acknowledges success and
overwrites the stored record with the new order and its score 0. -/
theorem C5_counterexample :
    (OrderingGame.handle_submit_order [1] [(1, ⟨"a", 0⟩), (1, ⟨"b", 1⟩)]
        [("p", ["a", "b"], 1)] "p" (some 1) ["b", "a"]).2 = some true ∧
    (OrderingGame.handle_submit_order [1] [(1, ⟨"a", 0⟩), (1, ⟨"b", 1⟩)]
        [("p", ["a", "b"], 1)] "p" (some 1) ["b", "a"]).1 =
      [("p", ["b", "a"], 0)] := by
  have h1 : OrderingGame.inversions
      (OrderingGame.correctPositions [⟨"a", 0⟩, ⟨"b", 1⟩]) ["b", "a"] = 1 := by
    decide
  have hscore : OrderingGame.calculate_kendall_tau_score
      [⟨"a", 0⟩, ⟨"b", 1⟩] ["b", "a"] = 0 := by
    norm_num [OrderingGame.calculate_kendall_tau_score, h1, OrderingGame.round4]
  constructor
  · simp [OrderingGame.handle_submit_order, sortLe, insertLe]
  · simp [OrderingGame.handle_submit_order, sortLe, insertLe, dictInsert,
      hscore]

/-- Claim C5 (amended: the input-answer path `handle_submit_answer` rejects
a second submission for the same (user, question, round) key with a failure
acknowledgement and leaves the answer table unchanged; the ordering game's
`submit_order` handler, by contrast, accepts a repeat submission for the
same question with a success acknowledgement and overwrites the stored
record, as the counterexample shows). -/
theorem C5_submit_answer_duplicate_rejected (answers : List App.AnswerRec)
    (uid qid rnd : Nat) (raw norm2 : String) (iscorr : Bool)
    (a : App.AnswerRec) (ha : a ∈ answers)
    (h1 : a.user_id = uid) (h2 : a.question_id = qid) (h3 : a.round = rnd) :
    (App.handle_submit_answer answers uid qid rnd raw norm2 iscorr).1 =
      answers ∧
    (App.handle_submit_answer answers uid qid rnd raw norm2 iscorr).2.1 =
      false := by
  unfold App.handle_submit_answer
  by_cases hr : raw = ""
  · simp [hr]
  · rw [if_neg hr]
    cases hf : answers.find? (fun a =>
        a.user_id == uid && a.question_id == qid && a.is_correct) with
    | some b => simp
    | none =>
      cases hg : answers.find? (fun a =>
          a.user_id == uid && a.question_id == qid && a.round == rnd) with
      | some b => simp
      | none =>
        exfalso
        have hnone := List.find?_eq_none.mp hg a ha
        apply hnone
        simp [h1, h2, h3]

/-- Witness for C5's amended theorem: a duplicate (user 1, question 2,
round 1) submission against a one-row answer table. -/
theorem C5_submit_answer_duplicate_rejected_witness :
    (App.handle_submit_answer [⟨1, 2, 1, "x", "x", false⟩] 1 2 1 "y" "y"
        false).1 = [⟨1, 2, 1, "x", "x", false⟩] ∧
    (App.handle_submit_answer [⟨1, 2, 1, "x", "x", false⟩] 1 2 1 "y" "y"
        false).2.1 = false :=
  C5_submit_answer_duplicate_rejected [⟨1, 2, 1, "x", "x", false⟩] 1 2 1 "y"
    "y" false ⟨1, 2, 1, "x", "x", false⟩ (by simp) rfl rfl rfl

theorem sortLe_head_min (ptd : List (String × ℚ)) (h : ptd ≠ []) :
    ∃ m t, sortLe (fun a b => decide (a.2 ≤ b.2)) ptd = m :: t ∧ m ∈ ptd ∧
      ∀ y ∈ ptd, m.2 ≤ y.2 := by
  induction ptd with
  | nil => exact absurd rfl h
  | cons p rest ih =>
    cases rest with
    | nil =>
      refine ⟨p, [], rfl, by simp, ?_⟩
      intro y hy
      rw [List.mem_singleton.mp hy]
    | cons q rest2 =>
      obtain ⟨m, t, hsort, hmem, hmin⟩ := ih (by simp)
      rw [show sortLe (fun a b : String × ℚ => decide (a.2 ≤ b.2))
        (p :: q :: rest2) =
        insertLe (fun a b => decide (a.2 ≤ b.2)) p
          (sortLe (fun a b => decide (a.2 ≤ b.2)) (q :: rest2)) from rfl, hsort]
      by_cases hpm : p.2 ≤ m.2
      · refine ⟨p, m :: t, by simp [insertLe, hpm], by simp, ?_⟩
        intro y hy
        rcases List.mem_cons.mp hy with h1 | h2
        · rw [h1]
        · exact le_trans hpm (hmin y h2)
      · refine ⟨m, insertLe (fun a b => decide (a.2 ≤ b.2)) p t,
          by simp [insertLe, hpm], List.mem_cons_of_mem p hmem, ?_⟩
        intro y hy
        rcases List.mem_cons.mp hy with h1 | h2
        · rw [h1]; exact le_of_not_le hpm
        · exact hmin y h2

/-- Claim C3: at round end of the geo-distance game, if any participant's
cumulative distance is at most 0.25 km, exactly those participants are
winners; otherwise the single participant with the (unique) minimum
cumulative distance wins alone. In particular, for distances
[0.1, 0.3, 5.0] km only the first participant wins, and for
[1.0, 2.0, 3.0] km only the participant at 1.0 wins. -/
theorem C3_geo_winner_selection :
    (∀ (ptd : List (String × ℚ)), (∃ p ∈ ptd, p.2 ≤ 1 / 4) →
      ∀ name, name ∈ GeoGuessr.calculate_scores_winners ptd ↔
        ∃ d, (name, d) ∈ ptd ∧ d ≤ 1 / 4) ∧
    (∀ (ptd : List (String × ℚ)) (u : String) (d : ℚ), (u, d) ∈ ptd →
      (∀ p ∈ ptd, ¬ p.2 ≤ 1 / 4) →
      (∀ p ∈ ptd, p.1 ≠ u → d < p.2) →
      GeoGuessr.calculate_scores_winners ptd = [u]) ∧
    GeoGuessr.calculate_scores_winners
      [("alice", 1 / 10), ("bob", 3 / 10), ("carol", 5)] = ["alice"] ∧
    GeoGuessr.calculate_scores_winners
      [("dora", 1), ("erin", 2), ("finn", 3)] = ["dora"] := by
  refine ⟨?_, ?_, ?_, ?_⟩
  · intro ptd hex name
    obtain ⟨p, hp, hple⟩ := hex
    have hmem : p ∈ ptd.filter (fun r => decide (r.2 ≤ 1 / 4)) :=
      List.mem_filter.mpr ⟨hp, by simpa using hple⟩
    have hne : (ptd.filter (fun r => decide (r.2 ≤ 1 / 4))).map
        (fun r => r.1) ≠ [] := by
      intro hcon
      rw [List.map_eq_nil_iff] at hcon
      rw [hcon] at hmem
      exact List.not_mem_nil p hmem
    simp only [GeoGuessr.calculate_scores_winners]
    rw [if_neg (by simpa [List.isEmpty_iff] using hne)]
    constructor
    · intro hn
      obtain ⟨r, hr, hr1⟩ := List.mem_map.mp hn
      have hrf := List.mem_filter.mp hr
      refine ⟨r.2, ?_, by simpa using hrf.2⟩
      rw [← hr1]
      simpa using hrf.1
    · intro hd
      obtain ⟨d, hdm, hdle⟩ := hd
      exact List.mem_map.mpr ⟨(name, d),
        List.mem_filter.mpr ⟨hdm, by simpa using hdle⟩, rfl⟩
  · intro ptd u d hmem hnone huniq
    have hfil : ptd.filter (fun r => decide (r.2 ≤ 1 / 4)) = [] := by
      rw [List.filter_eq_nil_iff]
      intro r hr
      simpa using hnone r hr
    obtain ⟨m, t, hsort, hm, hmin⟩ :=
      sortLe_head_min ptd (List.ne_nil_of_mem hmem)
    have hmu : m.1 = u := by
      by_cases hc : m.1 = u
      · exact hc
      · exfalso
        have h1 : d < m.2 := huniq m hm hc
        have h2 : m.2 ≤ d := hmin (u, d) hmem
        linarith
    have hwin : GeoGuessr.calculate_scores_winners ptd = [m.1] := by
      simp only [GeoGuessr.calculate_scores_winners]
      rw [hfil]
      simp [hsort]
    rw [hwin, hmu]
  · norm_num [GeoGuessr.calculate_scores_winners, List.filter_cons]
  · norm_num [GeoGuessr.calculate_scores_winners, List.filter_cons,
      sortLe, insertLe]

/-- Witness for C3's no-threshold branch: two players above 0.25 km with a
unique closest one. -/
theorem C3_geo_winner_selection_witness :
    GeoGuessr.calculate_scores_winners [("gina", 2), ("hank", 7)] = ["gina"] :=
  C3_geo_winner_selection.2.1 [("gina", 2), ("hank", 7)] "gina" 2
    (by simp) (by norm_num) (by norm_num)

theorem arcsin_scaled_le (x : ℝ) :
    2 * Real.arcsin x * 6371 ≤ 6371 * Real.pi := by
  have h := Real.arcsin_le_pi_div_two x
  nlinarith

/-- Claim C6 counterexample: a guess exactly antipodal to the round location
(location at latitude 0, longitude 0; guess at latitude 0, longitude 180)
is charged the haversine distance 6371·π ≈ 20015.1 km, which exceeds the
fixed 20000 km distance charged to a participant who never submits — so
this guess is scored worse than silence. -/
theorem C6_counterexample :
    20000 < Haversine.calculate_distance 0 0 0 180 := by
  have hr0 : Haversine.radians 0 = 0 := by simp [Haversine.radians]
  have hr180 : Haversine.radians 180 = Real.pi := by
    simp only [Haversine.radians]
    ring
  have hval : Haversine.calculate_distance 0 0 0 180 =
      2 * Real.arcsin 1 * 6371 := by
    simp only [Haversine.calculate_distance, hr0, hr180]
    norm_num [Real.sin_pi_div_two, Real.cos_zero, Real.sin_zero,
      Real.sqrt_one]
  rw [hval, Real.arcsin_one]
  have hpi := Real.pi_gt_d6
  nlinarith

/-- Claim C6 (amended: the haversine distance charged for a guess is always
at most 6371·π ≈ 20015.1 km; this bound exceeds the fixed 20000 km
non-submitter distance, so while a guess within 20000 km is always scored
better than silence, a near-antipodal guess can be charged more than a
non-submitter, as the counterexample shows). -/
theorem C6_distance_at_most_antipodal (lat1 lon1 lat2 lon2 : ℝ) :
    Haversine.calculate_distance lat1 lon1 lat2 lon2 ≤ 6371 * Real.pi := by
  simp only [Haversine.calculate_distance, Haversine.radians]
  exact arcsin_scaled_le _
